import Mathlib

/-!
Verification of the anchor-web-app repository's claims.

The development shallowly embeds the relevant TypeScript source:

* `src/unnamed/part_001` — the `queryOptions.fetchClient` transaction
  confirmation function: posts a transaction, then polls an indexer in a
  `while (true)` loop with a 500 ms sleep between empty responses, aborting
  on `signal.aborted`.
* `src/app/src/pages/earn/queries/interestEarned.ts` — the
  `dataMap.interestEarned` mapping, `mapVariables`, `getDates`, and the
  `sellFromSimulation` swap computation.

Asynchronous behaviour is embedded by treating each external interaction as
an oracle: the indexer's answer at the n-th poll iteration and the value of
`signal.aborted` read at the top of the n-th iteration are given by functions
`Nat → _` in a `FetchEnv`. The unbounded `while (true)` loop is embedded with
explicit fuel; running out of fuel yields `none` (no verdict), so genuine
non-termination is the statement that every fuel amount yields `none`.

`big.js` arbitrary-precision decimals are embedded as rationals; `plus`,
`minus` and `times` are exact on rationals exactly as in `big.js`, while
`div` rounds to `Big.DP = 20` decimal places with rounding mode
`Big.RM = 1` (ROUND_HALF_UP, half away from zero), the library defaults,
which the repository never overrides.
-/

namespace AnchorWebApp

/-! ## Transaction confirmation polling (`src/unnamed/part_001`) -/

/-- `TxResult` as consumed by `fetchClient`: `txResult.success`,
`txResult.msgs` (thrown inside `TxError`), `txResult.result.txhash`. -/
structure TxResult where
  success : Bool
  msgs : List String
  txhash : String
deriving Repr, DecidableEq

/-- One record of the indexer response `Data` from `queryTxInfo`:
the fields `Success` and `RawLog` used by `fetchClient`. -/
structure TxInfo where
  Success : Bool
  RawLog : String
deriving Repr, DecidableEq

/-- The errors `fetchClient` can throw: `new TxError(txResult.msgs)` on a
failed post, the `stopSignal` on abort, and `new Error(fail.RawLog.toString())`
on an indexed-but-failed transaction. -/
inductive FetchErr where
  | txError (msgs : List String)
  | stopSignal
  | rawLog (s : String)
deriving Repr, DecidableEq

/-- Observable events of one `fetchClient` execution: an indexer query
(with the `parsedData` it returned) and a `sleep(ms)`. -/
inductive Ev where
  | query (res : List TxInfo)
  | sleep (ms : Nat)
deriving Repr, DecidableEq

/-- Environment of one `fetchClient` execution: the awaited post result, the
indexer's `parsedData` at the n-th poll iteration, and the value of
`signal.aborted` read at the top of the n-th iteration. -/
structure FetchEnv where
  txResult : TxResult
  queries : Nat → List TxInfo
  aborted : Nat → Bool

/-- The `while (true)` polling loop of `fetchClient` (part_001 lines 33-54),
started at iteration `i`, with explicit fuel. Returns the trace of events and
`some` outcome, or `none` when the fuel runs out before the loop decides.

Source, per iteration: if `signal.aborted` then `throw stopSignal`; query
the indexer; if `txInfos.length > 0` then throw an `Error` built from the
first record with `Success` false if one exists, else return `txInfos`;
otherwise `await sleep(500)` and loop. -/
def pollLoop (env : FetchEnv) : Nat → Nat → List Ev × Option (Except FetchErr (List TxInfo))
  | 0, _ => ([], none)
  | fuel + 1, i =>
    if env.aborted i then
      ([], some (.error .stopSignal))
    else
      let txInfos := env.queries i
      if txInfos.length > 0 then
        match txInfos.find? (fun t => !t.Success) with
        | some fail => ([.query txInfos], some (.error (.rawLog fail.RawLog)))
        | none => ([.query txInfos], some (.ok txInfos))
      else
        let rest := pollLoop env fuel (i + 1)
        (.query txInfos :: .sleep 500 :: rest.1, rest.2)

/-- `fetchClient` (part_001 lines 21-55), after `stopWithAbortSignal(post,
signal)` has resolved to `txResult`: if `!txResult.success` throw
`TxError(txResult.msgs)`; otherwise (after `inProgressUpdate`) run the
polling loop from iteration 0. -/
def fetchClient (env : FetchEnv) (fuel : Nat) :
    List Ev × Option (Except FetchErr (TxResult × List TxInfo)) :=
  if !env.txResult.success then
    ([], some (.error (.txError env.txResult.msgs)))
  else
    let r := pollLoop env fuel 0
    (r.1, r.2.map (fun o => o.map (fun infos => (env.txResult, infos))))

/-- An execution terminates when some amount of fuel suffices for the loop to
produce a verdict (a return or a throw). -/
def fetchTerminates (env : FetchEnv) : Prop :=
  ∃ fuel, (fetchClient env fuel).2.isSome

/-- Every event trace of `pollLoop` separates an empty-response query from
whatever follows by a 500 ms sleep. -/
def sleepSeparated : List Ev → Bool
  | [] => true
  | .query r :: rest =>
    if r.length = 0 then
      match rest with
      | .sleep 500 :: rest' => sleepSeparated rest'
      | _ => false
    else sleepSeparated rest
  | .sleep _ :: rest => sleepSeparated rest

/-! ## big.js decimals

`big.js` values are arbitrary-precision decimals; `plus`, `minus` and
`times` are exact, so they embed as exact rational arithmetic. `div`
rounds, if necessary, to `Big.DP` decimal places (default 20) using
rounding mode `Big.RM` (default 1 = ROUND_HALF_UP: nearest neighbour,
ties away from zero); the repository never changes the defaults.
Numeric *string* fields arriving from GraphQL are embedded as `DecStr`:
either the empty string, a malformed (unparsable) string, or a
well-formed decimal with its value — everything the code observes of
such a string (its `length > 0` test and the `big(s)` parse). -/

/-- Parse status of a numeric string field. -/
inductive DecStr where
  | empty
  | malformed
  | val (q : ℚ)
deriving Repr, DecidableEq

/-- `new Big(s)`: succeeds exactly on a well-formed decimal string; the
empty string and malformed strings throw. -/
def DecStr.parse : DecStr → Option ℚ
  | .val q => some q
  | _ => none

/-- The JavaScript test `s.length > 0`. -/
def DecStr.isNonEmptyStr : DecStr → Bool
  | .empty => false
  | _ => true

/-- `Big.RM = 1` (ROUND_HALF_UP) rounding to an integer: nearest
neighbour, ties away from zero. -/
def roundHalfUp (q : ℚ) : ℤ :=
  if q < 0 then -⌊-q + 1 / 2⌋ else ⌊q + 1 / 2⌋

/-- Round a rational to `n` decimal places with ROUND_HALF_UP. -/
def bigRoundDp (n : ℕ) (q : ℚ) : ℚ :=
  (roundHalfUp (q * 10 ^ n) : ℚ) / 10 ^ n

/-- `Big#div`: division by zero throws; otherwise the quotient rounded
to `Big.DP = 20` decimal places with `Big.RM = 1`. -/
def bigDiv (x y : ℚ) : Option ℚ :=
  if y = 0 then none else some (bigRoundDp 20 (x / y))

/-! ## `dataMap.interestEarned`
(`src/app/src/pages/earn/queries/interestEarned.ts` lines 37-63) -/

/-- One `InterestEarnedUserRecords` row (`Earned`); only the fields the
mapping reads are numeric strings, the rest are carried opaquely. -/
structure Earned where
  Address : String
  CurrentDeposit : DecStr
  Height : ℤ
  StableDenom : String
  Timestamp : ℤ
  TotalDeposit : DecStr
  TotalWithdraw : DecStr
  CurrentAnchorBalance : DecStr

/-- One `AnchorExchangeRates` row. -/
structure ExchangeRateRecord where
  StableDenom : String
  ExchangeRate : DecStr

/-- `RawData`: `now` and `then` are optional lists (the GraphQL fields may
be absent), `fallback` and `latestExchangeRate` are lists. -/
structure RawData where
  latestExchangeRate : List ExchangeRateRecord
  fallback : List Earned
  now : Option (List Earned)
  «then» : Option (List Earned)

/-- `then && then.length >= 1 ? then[0] : fallback[0]` — `undefined`
(`none`) when the fallback list is empty too. -/
def referenceThen (d : RawData) : Option Earned :=
  match d.«then» with
  | some (t :: _) => some t
  | _ => d.fallback.head?

/-- `dataMap.interestEarned`. `.error ()` marks an exception escaping the
function (the statements before the `try` block can throw: reading
`ExchangeRate` of `latestExchangeRate[0]` when that list is empty, and the
`big(...)` / `.mul(...)` on malformed strings at lines 46-50); exceptions
raised inside the `try` block (reading `CurrentDeposit` of an `undefined`
`referenceThen`, or a `Big` constructor failure on a malformed operand of
the floor computation) are caught and yield `'0'`. The happy path returns
`floor(currentTokenValue - CurrentDeposit + TotalWithdraw - TotalDeposit)`
rendered by `toFixed()`, i.e. the decimal rendering of the floored
integer. -/
def interestEarned (d : RawData) : Except Unit String :=
  match d.now with
  | none => .ok "0"
  | some [] => .ok "0"
  | some (referenceNow :: _) =>
    match d.latestExchangeRate.head? with
    | none => .error ()
    | some ler =>
      match (if referenceNow.CurrentAnchorBalance.isNonEmptyStr then
               referenceNow.CurrentAnchorBalance.parse
             else some 0) with
      | none => .error ()
      | some cab =>
        match ler.ExchangeRate.parse with
        | none => .error ()
        | some er =>
          let currentTokenValue := cab * er
          match referenceThen d with
          | none => .ok "0"
          | some rThen =>
            match rThen.CurrentDeposit.parse, referenceNow.TotalWithdraw.parse,
                  referenceNow.TotalDeposit.parse with
            | some cd, some tw, some td =>
              .ok (toString (⌊currentTokenValue - cd + tw - td⌋ : ℤ))
            | _, _, _ => .ok "0"

/-! ## `sellFromSimulation` (second module of `interestEarned.ts` source
bundle, lines 303-333) -/

/-- `terraswap.SimulationResponse`. -/
structure SimulationResponse where
  return_amount : ℚ
  commission_amount : ℚ
  spread_amount : ℚ
deriving Repr, DecidableEq

/-- `TaxData` from `queries/tax`. -/
structure TaxData where
  taxRate : ℚ
  maxTaxUUSD : ℚ
deriving Repr, DecidableEq

/-- `TradeSimulation`: the spread-in simulation fields plus the computed
outputs. String renderings (`toFixed`, `toString`) are kept as the exact
values they denote. -/
structure TradeSimulation where
  return_amount : ℚ
  commission_amount : ℚ
  spread_amount : ℚ
  minimumReceived : ℚ
  swapFee : ℚ
  beliefPrice : ℚ
  maxSpread : ℚ
  txFee : ℚ
  fromAmount : ℚ
deriving Repr, DecidableEq

/-- `sellFromSimulation`. The two `big.js` divisions round to 20 decimal
places (`bigDiv`); a zero divisor throws (`none`). Evaluation order as in
the source: `beliefPrice` first, then `tax`. -/
def sellFromSimulation (simulation : SimulationResponse) (amount : ℚ)
    (taxData : TaxData) (fixedGas : ℚ) : Option TradeSimulation :=
  match bigDiv amount simulation.return_amount with
  | none => none
  | some beliefPrice =>
    match bigDiv amount (1 + taxData.taxRate) with
    | none => none
    | some amountDivOnePlusRate =>
      let tax := min (amount - amountDivOnePlusRate) taxData.maxTaxUUSD
      let expectedAmount := simulation.return_amount - tax
      let rate := 1 - 1 / 10
      some
        { return_amount := simulation.return_amount
          commission_amount := simulation.commission_amount
          spread_amount := simulation.spread_amount
          minimumReceived := expectedAmount * rate
          swapFee := simulation.commission_amount + simulation.spread_amount
          beliefPrice := beliefPrice
          maxSpread := 1 / 10
          txFee := tax + fixedGas
          fromAmount := amount * beliefPrice }

/-! ## `getDates` and `mapVariables`
(`interestEarned.ts` lines 236-254 and 88-99) -/

/-- The `Period` union type. -/
inductive Period where
  | total
  | year
  | month
  | week
  | day
deriving Repr, DecidableEq

/-- The calendar subtraction provided by the external `date-fns` library
(`sub(now, { years: 1 })` etc.), over millisecond timestamps. It is kept
as a parameter: its one relevant property is that subtracting a positive
calendar duration yields a strictly earlier instant. -/
structure CalendarOps where
  subYears : ℤ → ℤ
  subMonths : ℤ → ℤ
  subWeeks : ℤ → ℤ
  subDays : ℤ → ℤ

/-- The contract `date-fns` satisfies: subtracting one year, month, week
or day from any instant gives a strictly earlier instant. -/
def CalendarOps.Decreasing (cal : CalendarOps) : Prop :=
  ∀ t : ℤ,
    cal.subYears t < t ∧ cal.subMonths t < t ∧ cal.subWeeks t < t ∧
      cal.subDays t < t

/-- A concrete calendar whose day and week subtraction is exact
millisecond arithmetic — what `date-fns` computes in UTC absent DST
shifts — with month and year subtraction modelled as 30 and 365 days. -/
def utcDayCalendar : CalendarOps where
  subYears t := t - 365 * 86400000
  subMonths t := t - 30 * 86400000
  subWeeks t := t - 7 * 86400000
  subDays t := t - 86400000

/-- `getDates`: pairs the current time with the period's start
(`0` for `'total'`, otherwise one calendar unit before `now`). The source
reads `Date.now()`; the current time is the `now` argument here. Returned
as `(now, then)`. -/
def getDates (cal : CalendarOps) (period : Period) (now : ℤ) : ℤ × ℤ :=
  (now,
    match period with
    | .total => 0
    | .year => cal.subYears now
    | .month => cal.subMonths now
    | .week => cal.subWeeks now
    | .day => cal.subDays now)

/-- The `Variables` record fed to `mapVariables`. -/
structure Variables where
  walletAddress : String
  now : ℤ
  «then» : ℤ
deriving Repr, DecidableEq

/-- The `RawVariables` record it produces. -/
structure RawVariables where
  walletAddress : String
  now : ℤ
  «then» : ℤ
  stable_denom : String
deriving Repr, DecidableEq

/-- `mapVariables`: `Math.floor(t / 1000)` is floor division by 1000
(`Int.fdiv` rounds toward negative infinity, as `Math.floor` does). -/
def mapVariables (v : Variables) : RawVariables :=
  { walletAddress := v.walletAddress
    now := Int.fdiv v.now 1000
    «then» := Int.fdiv v.«then» 1000
    stable_denom := "uusd" }

/-! ## Concrete environments used as witnesses and counterexamples -/

/-- A successful post whose transaction is indexed (successfully) at the
second poll iteration. -/
def demoEnv : FetchEnv where
  txResult := { success := true, msgs := [], txhash := "ABCD" }
  queries j := if j = 1 then [{ Success := true, RawLog := "" }] else []
  aborted _ := false

/-- A successful post that the indexer never indexes, with an abort signal
that never fires. -/
def neverIndexedEnv : FetchEnv where
  txResult := { success := true, msgs := [], txhash := "ABCD" }
  queries _ := []
  aborted _ := false

/-- A post that failed (`success = false`). -/
def failedPostEnv : FetchEnv where
  txResult := { success := false, msgs := ["out of gas"], txhash := "" }
  queries _ := []
  aborted _ := false

/-- An execution whose abort signal is set from the start. -/
def abortEnv : FetchEnv where
  txResult := { success := true, msgs := [], txhash := "" }
  queries _ := []
  aborted _ := true

/-- A record with every numeric field a well-formed decimal. -/
def sampleEarnedNow : Earned where
  Address := "terra1sample"
  CurrentDeposit := .val 100
  Height := 10
  StableDenom := "uusd"
  Timestamp := 1700000000
  TotalDeposit := .val 7
  TotalWithdraw := .val 5
  CurrentAnchorBalance := .val 200

/-- An earlier record with `CurrentDeposit = 150`. -/
def sampleEarnedThen : Earned where
  Address := "terra1sample"
  CurrentDeposit := .val 150
  Height := 5
  StableDenom := "uusd"
  Timestamp := 1600000000
  TotalDeposit := .val 2
  TotalWithdraw := .val 1
  CurrentAnchorBalance := .val 90

/-- Raw data on the happy path: non-empty `now`, `then` and
`latestExchangeRate`, all referenced fields well-formed. -/
def sampleRawData : RawData where
  latestExchangeRate := [{ StableDenom := "uusd", ExchangeRate := .val (6 / 5) }]
  fallback := []
  now := some [sampleEarnedNow]
  «then» := some [sampleEarnedThen]

/-- Like `sampleEarnedNow` but with an empty `CurrentAnchorBalance`
string. -/
def sampleEarnedNoBalance : Earned where
  Address := "terra1sample"
  CurrentDeposit := .val 100
  Height := 10
  StableDenom := "uusd"
  Timestamp := 1700000000
  TotalDeposit := .val 7
  TotalWithdraw := .val 5
  CurrentAnchorBalance := .empty

/-- Raw data whose `now[0].CurrentAnchorBalance` is the empty string. -/
def emptyBalanceRawData : RawData where
  latestExchangeRate := [{ StableDenom := "uusd", ExchangeRate := .val (6 / 5) }]
  fallback := []
  now := some [sampleEarnedNoBalance]
  «then» := some [sampleEarnedThen]

/-- Raw data with `now` absent. -/
def noNowRawData : RawData where
  latestExchangeRate := []
  fallback := []
  now := none
  «then» := none

/-- Raw data reaching the `try` block with `referenceThen` undefined
(`then` absent and `fallback` empty). -/
def noThenRawData : RawData where
  latestExchangeRate := [{ StableDenom := "uusd", ExchangeRate := .val 1 }]
  fallback := []
  now := some [sampleEarnedNow]
  «then» := none

/-- A concrete simulation response with `return_amount = 3`. -/
def cexSimulation : SimulationResponse where
  return_amount := 3
  commission_amount := 0
  spread_amount := 0

/-- A concrete tax datum with zero tax rate. -/
def cexTaxData : TaxData where
  taxRate := 0
  maxTaxUUSD := 1000000

/-! ## Supporting lemmas on the polling loop -/

/-- The loop body never throws a `TxError`; that error arises only from the
post-failure check before the loop. -/
theorem pollLoop_no_txError (env : FetchEnv) :
    ∀ fuel i msgs, (pollLoop env fuel i).2 ≠ some (.error (.txError msgs)) := by
  intro fuel
  induction fuel with
  | zero => intro i msgs; simp [pollLoop]
  | succ f ih =>
    intro i msgs
    simp only [pollLoop]
    split
    · simp
    · split
      · split <;> simp
      · exact ih (i + 1) msgs

/-- Running the loop from iteration `s`, when the indexer returns empty
lists for `n` iterations, then a non-empty list, with no abort through
iteration `s + n`: the trace is `n` empty queries each followed by a
500 ms sleep and then the decisive query, and the outcome is the
ok/raw-log verdict on the first non-empty response. -/
theorem pollLoop_until (env : FetchEnv) :
    ∀ (n s fuel : ℕ),
    (∀ j, s ≤ j → j ≤ s + n → env.aborted j = false) →
    (∀ j, s ≤ j → j < s + n → env.queries j = []) →
    env.queries (s + n) ≠ [] →
    n < fuel →
    pollLoop env fuel s =
      ((List.replicate n [Ev.query [], Ev.sleep 500]).flatten ++
         [Ev.query (env.queries (s + n))],
       some (match (env.queries (s + n)).find? (fun t => !t.Success) with
             | some fail => .error (.rawLog fail.RawLog)
             | none => .ok (env.queries (s + n)))) := by
  intro n
  induction n with
  | zero =>
    intro s fuel hub hemp hne hfuel
    obtain ⟨f, rfl⟩ := Nat.exists_eq_succ_of_ne_zero (Nat.pos_iff_ne_zero.mp hfuel)
    simp only [pollLoop, hub s le_rfl (by omega), Bool.false_eq_true, if_false]
    rw [if_pos (List.length_pos.mpr (by simpa using hne))]
    simp only [Nat.add_zero] at hne ⊢
    cases hf : (env.queries s).find? (fun t => !t.Success) <;> simp [hf]
  | succ n ih =>
    intro s fuel hub hemp hne hfuel
    obtain ⟨f, rfl⟩ := Nat.exists_eq_succ_of_ne_zero (by omega : fuel ≠ 0)
    have habort : env.aborted s = false := hub s le_rfl (by omega)
    have hqs : env.queries s = [] := hemp s le_rfl (by omega)
    have hrec := ih (s + 1) f
      (fun j h1 h2 => hub j (by omega) (by omega))
      (fun j h1 h2 => hemp j (by omega) (by omega))
      (by simpa [show s + 1 + n = s + (n + 1) by omega] using hne)
      (by omega)
    simp only [pollLoop, habort, Bool.false_eq_true, if_false]
    rw [if_neg (by simp [hqs])]
    simp only [hqs, hrec, show s + 1 + n = s + (n + 1) by omega]
    simp [List.replicate_succ]

/-- If the indexer never indexes the transaction and the abort signal
never fires, no amount of fuel lets the loop decide. -/
theorem pollLoop_never_decides (env : FetchEnv)
    (hq : ∀ i, env.queries i = []) (ha : ∀ i, env.aborted i = false) :
    ∀ fuel i, (pollLoop env fuel i).2 = none := by
  intro fuel
  induction fuel with
  | zero => intro i; simp [pollLoop]
  | succ f ih =>
    intro i
    simp only [pollLoop, ha i, Bool.false_eq_true, if_false]
    rw [if_neg (by simp [hq i])]
    exact ih (i + 1)

/-- Every trace of the polling loop separates an empty-response query from
the rest of the trace by a 500 ms sleep. -/
theorem pollLoop_sleepSeparated (env : FetchEnv) :
    ∀ fuel i, sleepSeparated (pollLoop env fuel i).1 = true := by
  intro fuel
  induction fuel with
  | zero => intro i; simp [pollLoop, sleepSeparated]
  | succ f ih =>
    intro i
    simp only [pollLoop]
    split
    · simp [sleepSeparated]
    · split
      · rename_i hlen
        split <;>
          simp [sleepSeparated, show ¬(env.queries i).length = 0 by omega]
      · rename_i hlen
        simp only [sleepSeparated, if_pos (by omega : (env.queries i).length = 0)]
        exact ih (i + 1)

/-! ## Claim theorems: the polling loop -/

/-- C1: after a successful post, `fetchClient` queries the indexer
repeatedly until the returned `txInfos` list is non-empty (sleeping after
each empty answer); on the first non-empty answer it returns
`{ txResult, txInfos }` when every record has `Success = true`, and throws
an `Error` built from the first failing record's `RawLog` when some record
has `Success = false`. -/
theorem fetchClient_polls_until_indexed (env : FetchEnv) (i fuel : ℕ)
    (hsucc : env.txResult.success = true)
    (hub : ∀ j, j ≤ i → env.aborted j = false)
    (hemp : ∀ j, j < i → env.queries j = [])
    (hne : env.queries i ≠ [])
    (hfuel : i < fuel) :
    fetchClient env fuel =
      ((List.replicate i [Ev.query [], Ev.sleep 500]).flatten ++
         [Ev.query (env.queries i)],
       some (match (env.queries i).find? (fun t => !t.Success) with
             | some fail => .error (.rawLog fail.RawLog)
             | none => .ok (env.txResult, env.queries i))) := by
  have h := pollLoop_until env i 0 fuel (fun j _ hj => hub j (by omega))
    (fun j _ hj => hemp j (by omega)) (by simpa using hne) hfuel
  simp only [Nat.zero_add] at h
  cases hf : (env.queries i).find? (fun t => !t.Success) with
  | some fail =>
    simp only [hf] at h
    simp [fetchClient, hsucc, h, Except.map]
  | none =>
    simp only [hf] at h
    simp [fetchClient, hsucc, h, Except.map]

/-- Witness for C1 at `demoEnv`: one empty answer, one sleep, then the
decisive query, and a successful return. -/
theorem fetchClient_polls_until_indexed_witness :
    fetchClient demoEnv 2 =
      ([Ev.query [], Ev.sleep 500, Ev.query [⟨true, ""⟩]],
       some (.ok (⟨true, [], "ABCD"⟩, [⟨true, ""⟩]))) := by
  have h := fetchClient_polls_until_indexed demoEnv 1 2 rfl
    (fun j _ => rfl)
    (by intro j hj; interval_cases j; rfl)
    (by decide) (by omega)
  exact h.trans (by rfl)

/-- C2 counterexample: with an indexer that never returns a record and an
abort signal that never fires, no finite amount of fuel makes the loop
after the successful post produce any verdict: the retry loop is not
bounded. -/
theorem fetchClient_unbounded_retries_counterexample :
    neverIndexedEnv.txResult.success = true ∧ ¬fetchTerminates neverIndexedEnv := by
  refine ⟨rfl, ?_⟩
  rintro ⟨fuel, hf⟩
  have h := pollLoop_never_decides neverIndexedEnv (fun _ => rfl) (fun _ => rfl) fuel 0
  have hs : neverIndexedEnv.txResult.success = true := rfl
  simp [fetchClient, hs, h] at hf

/-- C2 (amended): the sleep-and-retry loop of `fetchClient` is unbounded —
after a successful post, if the indexer never returns a record for the
transaction and the abort signal never fires, the loop never terminates
(no number of iterations yields a verdict). -/
theorem fetchClient_never_terminates_when_never_indexed (env : FetchEnv)
    (hsucc : env.txResult.success = true)
    (h : ∀ i, env.aborted i = false ∧ env.queries i = []) :
    ¬fetchTerminates env := by
  rintro ⟨fuel, hf⟩
  have hp := pollLoop_never_decides env (fun i => (h i).2) (fun i => (h i).1) fuel 0
  simp [fetchClient, hsucc, hp] at hf

/-- Witness for the amended C2 at `neverIndexedEnv`. -/
theorem fetchClient_never_terminates_witness :
    ¬fetchTerminates neverIndexedEnv :=
  fetchClient_never_terminates_when_never_indexed neverIndexedEnv rfl
    (fun _ => ⟨rfl, rfl⟩)

/-- C3: when the awaited post result has `success = false`, `fetchClient`
throws `TxError(txResult.msgs)` with an empty event trace — no indexer
query, no polling iteration — and conversely a `TxError` is never raised
when `success = true`. -/
theorem fetchClient_post_failure (env : FetchEnv) (fuel : ℕ) :
    (env.txResult.success = false →
       fetchClient env fuel = ([], some (.error (.txError env.txResult.msgs)))) ∧
    (env.txResult.success = true →
       ∀ msgs, (fetchClient env fuel).2 ≠ some (.error (.txError msgs))) := by
  constructor
  · intro h
    simp [fetchClient, h]
  · intro h msgs
    simp only [fetchClient, h, Bool.not_true, Bool.false_eq_true, if_false]
    intro hcontra
    obtain ⟨o, ho, hmap⟩ := Option.map_eq_some'.mp hcontra
    cases o with
    | ok a => simp [Except.map] at hmap
    | error e =>
      simp only [Except.map, Except.error.injEq] at hmap
      exact pollLoop_no_txError env fuel 0 msgs (hmap ▸ ho)

/-- Witness for C3: the failing-post branch at `failedPostEnv` and the
converse direction at `demoEnv`. -/
theorem fetchClient_post_failure_witness :
    fetchClient failedPostEnv 3 = ([], some (.error (.txError ["out of gas"]))) ∧
    (fetchClient demoEnv 3).2 ≠ some (.error (.txError [])) :=
  ⟨(fetchClient_post_failure failedPostEnv 3).1 rfl,
   (fetchClient_post_failure demoEnv 3).2 rfl []⟩

/-- C7: every trace of `fetchClient` (and of the loop started at any
iteration) has a 500 ms sleep between an empty-response indexer query and
anything that follows it — in particular between two consecutive queries
whose first result was empty — and when `signal.aborted` holds at the top
of an iteration the loop throws `stopSignal` with no further event: no
later indexer query is issued. -/
theorem fetchClient_sleeps_and_stops_on_abort (env : FetchEnv) (fuel i : ℕ) :
    sleepSeparated (fetchClient env fuel).1 = true ∧
    sleepSeparated (pollLoop env fuel i).1 = true ∧
    (env.aborted i = true →
       pollLoop env (fuel + 1) i = ([], some (.error .stopSignal))) := by
  refine ⟨?_, pollLoop_sleepSeparated env fuel i, fun h => ?_⟩
  · by_cases hs : env.txResult.success
    · simpa [fetchClient, hs] using pollLoop_sleepSeparated env fuel 0
    · simp [fetchClient, hs, sleepSeparated]
  · simp [pollLoop, h]

/-- Witness for C7 at `abortEnv`: the abort branch fires at iteration 0. -/
theorem fetchClient_sleeps_and_stops_on_abort_witness :
    sleepSeparated (fetchClient abortEnv 4).1 = true ∧
    sleepSeparated (pollLoop abortEnv 4 0).1 = true ∧
    pollLoop abortEnv 5 0 = ([], some (.error .stopSignal)) :=
  ⟨(fetchClient_sleeps_and_stops_on_abort abortEnv 4 0).1,
   (fetchClient_sleeps_and_stops_on_abort abortEnv 4 0).2.1,
   (fetchClient_sleeps_and_stops_on_abort abortEnv 4 0).2.2 rfl⟩

/-! ## Claim theorems: `dataMap.interestEarned` -/

/-- `referenceThen` is `then[0]` when the `then` list has at least one
element, and `fallback[0]` otherwise. -/
theorem referenceThen_eq (d : RawData) (rt : Earned) {ts fb : List Earned}
    (hthen : d.«then» = some (rt :: ts) ∨
       ((d.«then» = none ∨ d.«then» = some []) ∧ d.fallback = rt :: fb)) :
    referenceThen d = some rt := by
  rcases hthen with h | ⟨h | h, hfb⟩
  · simp [referenceThen, h]
  · simp [referenceThen, h, hfb]
  · simp [referenceThen, h, hfb]

/-- C4: on raw data with non-empty `now` and `latestExchangeRate` lists and
well-formed referenced numeric fields, `interestEarned` returns exactly
`floor(now[0].CurrentAnchorBalance * latestExchangeRate[0].ExchangeRate
- then'.CurrentDeposit + now[0].TotalWithdraw - now[0].TotalDeposit)`
rendered as a decimal string, where `then'` is `then[0]` when the `then`
list has an element and `fallback[0]` otherwise, computed with exact
rational arithmetic. -/
theorem interestEarned_formula (d : RawData) (n0 : Earned) (ns : List Earned)
    (ler : ExchangeRateRecord) (lrest : List ExchangeRateRecord)
    (rt : Earned) (ts fb : List Earned) (cab er cd tw td : ℚ)
    (hnow : d.now = some (n0 :: ns))
    (hler : d.latestExchangeRate = ler :: lrest)
    (hthen : d.«then» = some (rt :: ts) ∨
       ((d.«then» = none ∨ d.«then» = some []) ∧ d.fallback = rt :: fb))
    (hcab : n0.CurrentAnchorBalance = .val cab)
    (her : ler.ExchangeRate = .val er)
    (hcd : rt.CurrentDeposit = .val cd)
    (htw : n0.TotalWithdraw = .val tw)
    (htd : n0.TotalDeposit = .val td) :
    interestEarned d = .ok (toString (⌊cab * er - cd + tw - td⌋ : ℤ)) := by
  have hrt := referenceThen_eq d rt hthen
  simp [interestEarned, hnow, hler, hrt, hcab, her, hcd, htw, htd,
    DecStr.parse, DecStr.isNonEmptyStr]

/-- Witness for C4 at `sampleRawData`:
`floor(200 * 6/5 - 150 + 5 - 7) = 88`. -/
theorem interestEarned_formula_witness :
    interestEarned sampleRawData = .ok "88" := by
  have h := interestEarned_formula sampleRawData sampleEarnedNow []
    { StableDenom := "uusd", ExchangeRate := .val (6 / 5) } []
    sampleEarnedThen [] [] 200 (6 / 5) 150 5 7
    rfl rfl (Or.inl rfl) rfl rfl rfl rfl rfl
  have h88 : (⌊(200 : ℚ) * (6 / 5) - 150 + 5 - 7⌋ : ℤ) = 88 := by norm_num
  rw [h, h88]
  rfl

/-- C8: when `now` is absent or empty, `interestEarned` is `'0'` whatever
the other fields hold; and whenever the floor computation inside the `try`
block raises (an undefined `referenceThen`, or a malformed
`CurrentDeposit`, `TotalWithdraw` or `TotalDeposit`), the error is caught
and `'0'` is returned rather than propagated. -/
theorem interestEarned_catches_to_zero (d : RawData) :
    ((d.now = none ∨ d.now = some []) → interestEarned d = .ok "0") ∧
    (∀ n0 ns, d.now = some (n0 :: ns) →
      ∀ q, (if n0.CurrentAnchorBalance.isNonEmptyStr then
              n0.CurrentAnchorBalance.parse else some 0) = some q →
      ∀ ler lrest er, d.latestExchangeRate = ler :: lrest →
        ler.ExchangeRate.parse = some er →
        (referenceThen d = none ∨
          ∃ rt, referenceThen d = some rt ∧
            (rt.CurrentDeposit.parse = none ∨ n0.TotalWithdraw.parse = none ∨
              n0.TotalDeposit.parse = none)) →
        interestEarned d = .ok "0") := by
  constructor
  · rintro (h | h) <;> simp [interestEarned, h]
  · rintro n0 ns hnow q hq ler lrest er hler her hbad
    rcases hbad with hrt | ⟨rt, hrt, h1 | h1 | h1⟩
    · simp [interestEarned, hnow, hler, hq, her, hrt]
    · simp [interestEarned, hnow, hler, hq, her, hrt, h1]
    · cases h2 : rt.CurrentDeposit.parse <;>
        simp [interestEarned, hnow, hler, hq, her, hrt, h1, h2]
    · cases h2 : rt.CurrentDeposit.parse <;>
        cases h3 : n0.TotalWithdraw.parse <;>
        simp [interestEarned, hnow, hler, hq, her, hrt, h1, h2, h3]

/-- Witness for C8: absent `now` at `noNowRawData`, and an undefined
`referenceThen` (absent `then`, empty `fallback`) at `noThenRawData`. -/
theorem interestEarned_catches_to_zero_witness :
    interestEarned noNowRawData = .ok "0" ∧
    interestEarned noThenRawData = .ok "0" :=
  ⟨(interestEarned_catches_to_zero noNowRawData).1 (Or.inl rfl),
   (interestEarned_catches_to_zero noThenRawData).2 sampleEarnedNow [] rfl
     200 rfl { StableDenom := "uusd", ExchangeRate := .val 1 } [] 1 rfl rfl
     (Or.inl rfl)⟩

/-- C9: with non-empty `now` and `latestExchangeRate` and an empty
`CurrentAnchorBalance` string, the balance is treated as `0` and
`interestEarned` returns
`floor(0 - then'.CurrentDeposit + TotalWithdraw - TotalDeposit)`,
with `then'` as in C4. -/
theorem interestEarned_empty_balance (d : RawData) (n0 : Earned) (ns : List Earned)
    (ler : ExchangeRateRecord) (lrest : List ExchangeRateRecord)
    (rt : Earned) (ts fb : List Earned) (er cd tw td : ℚ)
    (hnow : d.now = some (n0 :: ns))
    (hler : d.latestExchangeRate = ler :: lrest)
    (hthen : d.«then» = some (rt :: ts) ∨
       ((d.«then» = none ∨ d.«then» = some []) ∧ d.fallback = rt :: fb))
    (hcab : n0.CurrentAnchorBalance = .empty)
    (her : ler.ExchangeRate = .val er)
    (hcd : rt.CurrentDeposit = .val cd)
    (htw : n0.TotalWithdraw = .val tw)
    (htd : n0.TotalDeposit = .val td) :
    interestEarned d = .ok (toString (⌊0 - cd + tw - td⌋ : ℤ)) := by
  have hrt := referenceThen_eq d rt hthen
  simp [interestEarned, hnow, hler, hrt, hcab, her, hcd, htw, htd,
    DecStr.parse, DecStr.isNonEmptyStr]

/-- Witness for C9 at `emptyBalanceRawData`:
`floor(0 - 150 + 5 - 7) = -152`. -/
theorem interestEarned_empty_balance_witness :
    interestEarned emptyBalanceRawData = .ok "-152" := by
  have h := interestEarned_empty_balance emptyBalanceRawData
    sampleEarnedNoBalance []
    { StableDenom := "uusd", ExchangeRate := .val (6 / 5) } []
    sampleEarnedThen [] [] (6 / 5) 150 5 7
    rfl rfl (Or.inl rfl) rfl rfl rfl rfl rfl
  have hv : (⌊(0 : ℚ) - 150 + 5 - 7⌋ : ℤ) = -152 := by norm_num
  rw [h, hv]
  rfl

/-- C6: the arithmetic transforms are deterministic — equal inputs give
equal outputs for `sellFromSimulation` and for `interestEarned`. In this
embedding both are functions of their arguments alone, so they neither
read nor write any outside state. -/
theorem arith_transforms_deterministic
    (s s' : SimulationResponse) (a a' : ℚ) (t t' : TaxData) (g g' : ℚ)
    (d d' : RawData)
    (hs : s = s') (ha : a = a') (ht : t = t') (hg : g = g') (hd : d = d') :
    sellFromSimulation s a t g = sellFromSimulation s' a' t' g' ∧
    interestEarned d = interestEarned d' := by
  subst hs ha ht hg hd
  exact ⟨rfl, rfl⟩

/-- Witness for C6 at concrete inputs. -/
theorem arith_transforms_deterministic_witness :
    sellFromSimulation cexSimulation 1 cexTaxData 0 =
      sellFromSimulation cexSimulation 1 cexTaxData 0 ∧
    interestEarned sampleRawData = interestEarned sampleRawData :=
  arith_transforms_deterministic cexSimulation cexSimulation 1 1
    cexTaxData cexTaxData 0 0 sampleRawData sampleRawData
    rfl rfl rfl rfl rfl

/-! ## Claim theorems: `sellFromSimulation` -/

/-- C5 counterexample: at `amount = 1`, `return_amount = 3` (tax rate 0),
the returned `beliefPrice` is the 20-decimal-place half-up rounding of
`1/3` that `big.js` division produces, not the exact quotient `1/3`: the
record is not computed with exact division. -/
theorem sellFromSimulation_exact_counterexample :
    (sellFromSimulation cexSimulation 1 cexTaxData 0).map
        TradeSimulation.beliefPrice ≠ some ((1 : ℚ) / 3) := by
  unfold sellFromSimulation bigDiv bigRoundDp roundHalfUp cexSimulation cexTaxData
  norm_num

/-- C5 (amended): with `return_amount ≠ 0` and `1 + taxRate ≠ 0` (so no
division throws), `sellFromSimulation` returns the record with
`tax = min(amount - round20(amount / (1 + taxRate)), maxTaxUUSD)`,
`swapFee = commission_amount + spread_amount`,
`minimumReceived = (return_amount - tax) * (1 - 0.1)`,
`txFee = tax + fixedGas`, `maxSpread = 0.1`,
`beliefPrice = round20(amount / return_amount)` and
`fromAmount = amount * beliefPrice`, where `round20` (`bigRoundDp 20`)
rounds a quotient to 20 decimal places half-up — `big.js` division at its
default precision; every other operation is exact. -/
theorem sellFromSimulation_fields (simulation : SimulationResponse)
    (amount : ℚ) (taxData : TaxData) (fixedGas : ℚ)
    (hret : simulation.return_amount ≠ 0)
    (hrate : 1 + taxData.taxRate ≠ 0) :
    sellFromSimulation simulation amount taxData fixedGas =
      some
        { return_amount := simulation.return_amount
          commission_amount := simulation.commission_amount
          spread_amount := simulation.spread_amount
          minimumReceived :=
            (simulation.return_amount -
              min (amount - bigRoundDp 20 (amount / (1 + taxData.taxRate)))
                taxData.maxTaxUUSD) * (1 - 1 / 10)
          swapFee := simulation.commission_amount + simulation.spread_amount
          beliefPrice := bigRoundDp 20 (amount / simulation.return_amount)
          maxSpread := 1 / 10
          txFee :=
            min (amount - bigRoundDp 20 (amount / (1 + taxData.taxRate)))
              taxData.maxTaxUUSD + fixedGas
          fromAmount :=
            amount * bigRoundDp 20 (amount / simulation.return_amount) } := by
  unfold sellFromSimulation bigDiv
  rw [if_neg hret, if_neg hrate]

/-- Witness for the amended C5 at `amount = 1`, `return_amount = 3`,
`taxRate = 0`, `fixedGas = 5`. -/
theorem sellFromSimulation_fields_witness :
    sellFromSimulation cexSimulation 1 cexTaxData 5 =
      some
        { return_amount := 3
          commission_amount := 0
          spread_amount := 0
          minimumReceived := 27 / 10
          swapFee := 0
          beliefPrice := 33333333333333333333 / 10 ^ 20
          maxSpread := 1 / 10
          txFee := 5
          fromAmount := 33333333333333333333 / 10 ^ 20 } := by
  have h := sellFromSimulation_fields cexSimulation 1 cexTaxData 5
    (by norm_num [cexSimulation]) (by norm_num [cexTaxData])
  rw [h]
  norm_num [cexSimulation, cexTaxData, bigRoundDp, roundHalfUp,
    TradeSimulation.mk.injEq]

/-! ## Claim theorems: `getDates` and `mapVariables` -/

/-- The concrete `utcDayCalendar` satisfies the date-fns contract. -/
theorem utcDayCalendar_decreasing : utcDayCalendar.Decreasing := by
  intro t
  refine ⟨?_, ?_, ?_, ?_⟩
  · show t - 365 * 86400000 < t
    omega
  · show t - 30 * 86400000 < t
    omega
  · show t - 7 * 86400000 < t
    omega
  · show t - 86400000 < t
    omega

/-- C10 counterexample: with the exact millisecond day arithmetic that
`date-fns` performs in UTC, at current time `86400000` ms
(1970-01-02T00:00:00Z) and period `'day'`, `getDates` returns `then = 0`
although the period is not `'total'`: `then = 0` does not hold *exactly*
when the period is `'total'`. -/
theorem getDates_then_zero_counterexample :
    (getDates utcDayCalendar Period.day 86400000).2 = 0 ∧
      Period.day ≠ Period.total := by
  refine ⟨?_, by decide⟩
  show utcDayCalendar.subDays 86400000 = 0
  decide

/-- C10 (amended): for every calendar satisfying the date-fns contract
(subtracting a positive duration strictly decreases the instant), every
period and every non-negative current time, `getDates` returns
`then ≤ now`, and `then = 0` when the period is `'total'` (`then` can
also be `0` for other periods at particular times); `mapVariables` maps
both timestamps to whole seconds by floor division by 1000, leaves
`walletAddress` unchanged and always sets `stable_denom` to `'uusd'`. -/
theorem getDates_mapVariables_spec (cal : CalendarOps) (hcal : cal.Decreasing)
    (period : Period) (now : ℤ) (hnow : 0 ≤ now) (v : Variables) :
    (getDates cal period now).2 ≤ (getDates cal period now).1 ∧
    (period = .total → (getDates cal period now).2 = 0) ∧
    mapVariables v =
      { walletAddress := v.walletAddress
        now := Int.fdiv v.now 1000
        «then» := Int.fdiv v.«then» 1000
        stable_denom := "uusd" } := by
  refine ⟨?_, ?_, rfl⟩
  · cases period with
    | total => simpa [getDates] using hnow
    | year => simpa [getDates] using (hcal now).1.le
    | month => simpa [getDates] using (hcal now).2.1.le
    | week => simpa [getDates] using (hcal now).2.2.1.le
    | day => simpa [getDates] using (hcal now).2.2.2.le
  · intro h
    subst h
    rfl

/-- Witness for the amended C10: period `'week'` at a concrete time, and
`mapVariables` on concrete variables. -/
theorem getDates_mapVariables_witness :
    (getDates utcDayCalendar Period.week 1000000000000).2 ≤
      (getDates utcDayCalendar Period.week 1000000000000).1 ∧
    (Period.week = Period.total →
      (getDates utcDayCalendar Period.week 1000000000000).2 = 0) ∧
    mapVariables { walletAddress := "terra1abc", now := 1609459199999,
                   «then» := 1577836800001 } =
      { walletAddress := "terra1abc", now := 1609459199,
        «then» := 1577836800, stable_denom := "uusd" } := by
  have h := getDates_mapVariables_spec utcDayCalendar utcDayCalendar_decreasing
    Period.week 1000000000000 (by norm_num)
    { walletAddress := "terra1abc", now := 1609459199999,
      «then» := 1577836800001 }
  exact ⟨h.1, h.2.1, h.2.2.trans (by decide)⟩

end AnchorWebApp
